import Mathlib

/-!
# HTTP file server with transaction / exit-call instrumentation

A shallow embedding of `request_handler.cpp` (`url_decode`, `make_exit_call`,
`handle_request`) and of the start-up sequence in `main.cpp`, followed by the
properties established about them.

A `std::string` is a list of characters, each character standing for one byte.
Calls into the instrumentation SDK are recorded as a trace of events, in call order.
-/

namespace http.server

/-- A `std::string`: a sequence of bytes, each held as a `Char` below 256. -/
abbrev Str := List Char

/-! ## The standard library pieces the handler relies on -/

/-- `std::isspace` in the classic locale: space, `\t`, `\n`, `\v`, `\f`, `\r`. -/
def isspace (c : Char) : Bool :=
  decide (c.toNat = 32) || (decide (9 ≤ c.toNat) && decide (c.toNat ≤ 13))

/-- `std::isxdigit`: one of `0-9`, `a-f`, `A-F`. -/
def isxdigit (c : Char) : Bool :=
  (decide (48 ≤ c.toNat) && decide (c.toNat ≤ 57))
    || (decide (97 ≤ c.toNat) && decide (c.toNat ≤ 102))
    || (decide (65 ≤ c.toNat) && decide (c.toNat ≤ 70))

/-- The value of a hexadecimal digit (`0` for any other character). -/
def hexval (c : Char) : Nat :=
  if 48 ≤ c.toNat ∧ c.toNat ≤ 57 then c.toNat - 48
  else if 97 ≤ c.toNat ∧ c.toNat ≤ 102 then c.toNat - 87
  else if 65 ≤ c.toNat ∧ c.toNat ≤ 70 then c.toNat - 55
  else 0

/-- `INT_MAX` for the 32-bit `int` that receives the extracted value. -/
def INT_MAX : Int := 2 ^ 31 - 1

/-- `INT_MIN` for the 32-bit `int` that receives the extracted value. -/
def INT_MIN : Int := -(2 ^ 31)

/-- The sign accepted in front of a number: `(negative, remaining input)`. -/
def take_sign : Str → Bool × Str
  | c :: t => if c = '-' then (true, t) else if c = '+' then (false, t) else (false, c :: t)
  | [] => (false, [])

/-- The optional `0x` / `0X` that may precede the digits of a hexadecimal field. -/
def skip_0x : Str → Str
  | c :: x :: t => if c = '0' ∧ (x = 'x' ∨ x = 'X') then t else c :: x :: t
  | s => s

/-- The expression `std::istringstream is(s); is >> std::hex >> value` for an `int value`:
`some v` when the extraction succeeds and stores `v`, `none` when the stream is left in a
failed state.  This is the formatted integer extraction of the C++ standard library
(`num_get::do_get` in the classic locale, with `skipws` set as it is by default): it skips
leading white space, accepts a sign and a `0x` prefix, then takes hexadecimal digits for as
long as there are any and stops at the first character that is not one, which it leaves
unread; it fails when no digit was taken or the value does not fit an `int`.  So the field
`2g` yields `2`, the field `g2` fails, and the field `0x` fails. -/
def hex_extract (s : Str) : Option Int :=
  let (negative, t) := take_sign (s.dropWhile isspace)
  let digits := (skip_0x t).takeWhile isxdigit
  if digits = [] then none
  else
    let magnitude : Int := (digits.foldl (fun acc d => 16 * acc + hexval d) 0 : Nat)
    let value : Int := if negative then -magnitude else magnitude
    if INT_MIN ≤ value ∧ value ≤ INT_MAX then some value else none

/-- The conversion `static_cast<char>(value)`: the low eight bits of `value`. -/
def static_cast_char (value : Int) : Char := Char.ofNat (value % 256).toNat

/-! ## `request_handler::url_decode` -/

/-- The `for` loop of `url_decode`, positioned at index `i` where the first argument is
`in.substr(i)`, with `out` as decoded so far.  Returns the `bool` result and `out`. -/
def url_decode_loop : Str → Str → Bool × Str
  | [], out => (true, out)
  | c :: rest, out =>
    if c = '%' then
      match rest with
      | a :: b :: rest2 =>
        -- `i + 3 <= in.size()`; the field is `in.substr(i + 1, 2)`
        match hex_extract [a, b] with
        | some value => url_decode_loop rest2 (out ++ [static_cast_char value])
        | none => (false, out)
      | _ => (false, out)
    else if c = '+' then url_decode_loop rest (out ++ [' '])
    else url_decode_loop rest (out ++ [c])

/-- The function `request_handler::url_decode(in, out)`: the returned flag and the final `out`. -/
def url_decode (inp : Str) : Bool × Str := url_decode_loop inp []

/-! ## `std::string` operations used by the handler -/

/-- The call `s.find(pat)`: the first index at which `pat` occurs in `s`; `none` is `npos`. -/
def find : Str → Str → Option Nat
  | [], pat => if pat = [] then some 0 else none
  | c :: t, pat =>
    if pat.isPrefixOf (c :: t) then some 0 else (find t pat).map (· + 1)

/-- The call `s.find_last_of(chars)`: the last index holding one of `chars`; `none` is `npos`. -/
def find_last_of : Str → Str → Option Nat
  | [], _ => none
  | c :: t, chars =>
    match find_last_of t chars with
    | some i => some (i + 1)
    | none => if c ∈ chars then some 0 else none

/-- The call `s.substr(pos, n)` where `n = none` is `npos` (to the end of the string). -/
def substr (s : Str) (pos : Nat) (n : Option Nat) : Str :=
  match n with
  | some k => (s.drop pos).take k
  | none => s.drop pos

/-- The call `s.c_str()` as a C string: the bytes before the first NUL. -/
def c_str (s : Str) : Str := s.takeWhile (fun c => c != Char.ofNat 0)

/-- The call `std::to_string(n)` for an unsigned value: its decimal digits. -/
def to_string (n : Nat) : Str := Nat.toDigits 10 n

/-! ## Replies, requests and the instrumentation trace -/

/-- Modelled from the spec: `reply::status_type` (reply.hpp is not among the sources).
The spec names the statuses `ok`, `bad_request` and `not_found`; any other status a reply
may hold is kept by its numeric code. -/
inductive status_type
  | ok
  | bad_request
  | not_found
  | other (code : Nat)
  deriving DecidableEq

/-- Modelled from the spec: `struct header` (header.hpp is not among the sources),
a name and a value. -/
structure header where
  name : Str
  value : Str
  deriving DecidableEq

/-- Modelled from the spec: `struct reply` (reply.hpp is not among the sources):
status, headers and body bytes. -/
structure reply where
  status : status_type
  headers : List header
  content : Str
  deriving DecidableEq

/-- Modelled from the spec: `struct request` (request.hpp is not among the sources),
with the members the handler reads. -/
structure request where
  method : Str
  uri : Str
  headers : List header
  deriving DecidableEq

/-- The severity passed to the SDK; the handler only uses `APPD_LEVEL_ERROR`. -/
inductive appd_error_level
  | APPD_LEVEL_NOTICE
  | APPD_LEVEL_WARNING
  | APPD_LEVEL_ERROR
  deriving DecidableEq

/-- One observable call made by `handle_request`, in the order the calls are made.
`bt_begin` is the construction of the `appd::sdk::BT` object and `bt_end` its destruction
when the scope is left (modelled from the spec, which has the Transaction Span closed
implicitly where the scope ends; appdynamics.h is not among the sources).  The last argument
of `exitcall_add_error` is the flag the spec calls `is_fatal`. -/
inductive Event
  | bt_begin (name : Str) (correlation : Str)
  | bt_set_url (url : Str)
  | bt_add_user_data (key : Str) (value : Str)
  | bt_add_error (level : appd_error_level) (message : Str)
  | bt_end
  | ifstream_open (path : Str)
  | exitcall_begin (backend : Str)
  | exitcall_set_details (details : Str)
  | exitcall_get_correlation_header
  | exitcall_add_error (level : appd_error_level) (message : Str) (flag : Bool)
  | exitcall_end
  deriving DecidableEq

/-- What happens to the outbound HTTP call inside `make_exit_call`: the first step that
throws (with the text of `e.what()`), or the error code left by the final `shutdown`. -/
inductive Outbound
  | resolve_throws (what : Str)
  | connect_throws (what : Str)
  | write_throws (what : Str)
  | read_throws (what : Str)
  | shutdown_ok
  | shutdown_not_connected
  | shutdown_error (what : Str)
  deriving DecidableEq

/-- Everything outside the handler that one call of `handle_request` depends on. -/
structure World where
  /-- What `std::ifstream` finds at a path: `none` when the file cannot be opened. -/
  file : Str → Option Str
  /-- The process environment as seen by `getenv`: `none` is `NULL`. -/
  getenv : Str → Option Str
  /-- The fate of the outbound call. -/
  outbound : Outbound
  /-- The table `mime_types::extension_to_type` (mime_types.cpp is not among the sources). -/
  extension_to_type : Str → Str
  /-- The body text of the stock reply for a status (reply.cpp is not among the sources). -/
  stock_content : status_type → Str
  /-- The headers of the stock reply for a status (reply.cpp is not among the sources). -/
  stock_headers : status_type → List header

/-- Modelled from the spec: `reply::stock_reply` (reply.cpp is not among the sources):
the canned reply for a status, carrying that status. -/
def stock_reply (w : World) (status : status_type) : reply :=
  { status := status, headers := w.stock_headers status, content := w.stock_content status }

/-- The object `request_handler`, holding the document root. -/
structure request_handler where
  doc_root_ : Str

/-! ## `make_exit_call` -/

/-- The protected region of `make_exit_call`: the SDK calls made inside the `try` block and
the text of the exception thrown out of it, if any.  The correlation header is fetched after
`resolve` and `connect` and before the request is written. -/
def exit_call_try : Outbound → List Event × Option Str
  | .resolve_throws what => ([], some what)
  | .connect_throws what => ([], some what)
  | .write_throws what => ([.exitcall_get_correlation_header], some what)
  | .read_throws what => ([.exitcall_get_correlation_header], some what)
  | .shutdown_ok => ([.exitcall_get_correlation_header], none)
  | .shutdown_not_connected => ([.exitcall_get_correlation_header], none)
  | .shutdown_error what => ([.exitcall_get_correlation_header], some what)

/-- The function `make_exit_call(bt, backendName, target, host, port)`: the SDK calls it makes
and whether it leaves by rethrowing (`true`) or returns normally (`false`). -/
def make_exit_call (backendName _target _host _port : Str) (net : Outbound) :
    List Event × Bool :=
  let opened := [Event.exitcall_begin backendName, Event.exitcall_set_details backendName]
  match exit_call_try net with
  | (inside, some what) =>
    (opened ++ inside
      ++ [Event.exitcall_add_error .APPD_LEVEL_ERROR what true, Event.exitcall_end], true)
  | (inside, none) => (opened ++ inside ++ [Event.exitcall_end], false)

/-! ## `request_handler::handle_request` -/

/-- The loop `while (is.read(buf, sizeof(buf)).gcount() > 0) rep.content.append(buf, gcount)`
with a 512-byte buffer: `unread` is what the stream still holds.  Each round that reads
something consumes at least one byte, so `unread.length + 1` rounds always suffice
(`read_loop_eq`). -/
def read_loop : Nat → Str → Str → Str
  | 0, _, content => content
  | fuel + 1, unread, content =>
    let buf := unread.take 512
    if buf.length > 0 then read_loop fuel (unread.drop 512) (content ++ buf) else content

/-- The call `v.resize(n)` on a vector of headers: truncate, or pad with empty headers. -/
def resize (v : List header) (n : Nat) : List header :=
  (v ++ List.replicate n (header.mk [] [])).take n

/-- The scan of the request headers for `singularityheader`: the value of the first header
of that name, or the empty string. -/
def singularityheader (headers : List header) : Str :=
  match headers.find? (fun h => h.name = "singularityheader".toList) with
  | some h => h.value
  | none => []

/-- The step "if path ends in slash (i.e. is a directory) then add index.html". -/
def add_index (request_path : Str) : Str :=
  if request_path.getLast? = some '/' then request_path ++ "index.html".toList
  else request_path

/-- The step "determine the file extension": the text after the last dot, when that dot
comes after the last slash. -/
def extension_of (request_path : Str) : Str :=
  let last_slash_pos := find_last_of request_path ['/']
  let last_dot_pos := find_last_of request_path ['.']
  match last_dot_pos, last_slash_pos with
  | some dot, some slash => if dot > slash then substr request_path (dot + 1) none else []
  | some _, none => []  -- `npos` is the largest `size_t`, no position exceeds it
  | none, _ => []

/-- The test "request path must be absolute and not contain `..`": `true` when the decoded
path is rejected. -/
def rejected (request_path : Str) : Bool :=
  request_path.isEmpty || request_path.head? != some '/'
    || (find request_path ['.', '.']).isSome

/-- The reply filled in once the file is open: status, the file appended to the content the
reply already holds, and the two headers. -/
def fill_reply (w : World) (rep : reply) (bytes : Str) (extension : Str) : reply :=
  let content := read_loop (bytes.length + 1) bytes rep.content
  let headers := resize rep.headers 2
  let headers := headers.set 0 (header.mk "Content-Length".toList (to_string content.length))
  let headers := headers.set 1 (header.mk "Content-Type".toList (w.extension_to_type extension))
  { status := .ok, headers := headers, content := content }

/-- The tail of `handle_request` once the reply is filled: one exit call against the backend
selected by `APPDYNAMICS_UPSTREAM_TIER`, then the response-status annotation.  Returns the
calls made, ending with the destruction of the `BT` object. -/
def exit_call_section (w : World) (request_path : Str) : List Event :=
  if w.getenv "APPDYNAMICS_UPSTREAM_TIER".toList = some "true".toList then
    match make_exit_call "RabbitMQ".toList request_path "localhost".toList "8081".toList
        w.outbound with
    | (calls, true) =>
      calls ++ [.bt_add_user_data "HTTP-Response-Status".toList "502".toList, .bt_end]
    | (calls, false) =>
      calls ++ [.bt_add_user_data "HTTP-Response-Status".toList "200".toList, .bt_end]
  else
    match make_exit_call "http://ext-api.stoloto.ru".toList "/index.html".toList
        "www.example.com".toList "80".toList w.outbound with
    | (calls, true) =>
      calls ++ [.bt_add_user_data "HTTP-Response-Status".toList "501".toList, .bt_end]
    | (calls, false) =>
      calls ++ [.bt_add_user_data "HTTP-Response-Status".toList "200".toList, .bt_end]

/-- The method `request_handler::handle_request(req, rep)`: the reply left in `rep` and the
trace of calls made, in order. -/
def handle_request (self : request_handler) (w : World) (req : request) (rep : reply) :
    reply × List Event :=
  match url_decode req.uri with
  | (false, _) => (stock_reply w .bad_request, [])
  | (true, request_path) =>
    if rejected request_path then (stock_reply w .bad_request, [])
    else
      let started : List Event :=
        [ .bt_begin (substr request_path 0 (find_last_of request_path ['/']))
            (singularityheader req.headers),
          .bt_set_url request_path,
          .bt_add_user_data "HTTP-Request-Method".toList req.method ]
      let request_path := add_index request_path
      let extension := extension_of request_path
      let full_path := self.doc_root_ ++ request_path
      match w.file (c_str full_path) with
      | none =>
        (stock_reply w .not_found,
          started ++ [ .ifstream_open (c_str full_path),
            .bt_add_error .APPD_LEVEL_ERROR "404 - Not found".toList,
            .bt_add_user_data "HTTP-Response-Status".toList "404".toList,
            .bt_end ])
      | some bytes =>
        (fill_reply w rep bytes extension,
          started ++ [.ifstream_open (c_str full_path)] ++ exit_call_section w request_path)


end http.server

/-! ## Start-up: `main` -/

namespace startup

/-- The kind of a declared backend. -/
inductive backend_kind
  | APPD_BACKEND_RABBITMQ
  | APPD_BACKEND_HTTP
  deriving DecidableEq

/-- One call made by `main` after the configuration is assembled, with the code it returned
where it returns one. -/
inductive StartupCall
  | appd_sdk_init (rc : Int)
  | appd_backend_declare (kind : backend_kind) (name : http.server.Str)
  | appd_backend_set_identifying_property (name key value : http.server.Str) (rc : Int)
  | appd_backend_prevent_agent_resolution (name : http.server.Str) (rc : Int)
  | appd_backend_add (name : http.server.Str) (rc : Int)
  | appd_sdk_term
  | server_construct
  | server_run
  deriving DecidableEq

/-- The return codes the SDK gives to the calls `main` makes. -/
structure Sdk where
  appd_sdk_init : Int
  appd_backend_set_identifying_property : http.server.Str → http.server.Str → http.server.Str → Int
  appd_backend_prevent_agent_resolution : http.server.Str → Int
  appd_backend_add : http.server.Str → Int

/-- What becomes of the server object: its constructor throws, `run` throws, or `run`
returns. -/
inductive ServerFate
  | constructor_throws
  | run_throws
  | run_returns
  deriving DecidableEq

open http.server in
/-- The tail of `main` from "Initialise the server" on; every way out returns `0`. -/
def serve (calls : List StartupCall) : ServerFate → Int × List StartupCall
  | .constructor_throws => (0, calls ++ [.server_construct])
  | .run_throws => (0, calls ++ [.server_construct, .server_run])
  | .run_returns => (0, calls ++ [.server_construct, .server_run, .appd_sdk_term])

open http.server in
/-- The block of `main` that registers `backendTwo`, entered when
`APPDYNAMICS_UPSTREAM_TIER` is unset. -/
def register_backend_two (sdk : Sdk) (srv : ServerFate) (calls : List StartupCall) :
    Int × List StartupCall :=
  let backendTwo := "http://ext-api.stoloto.ru".toList
  let calls := calls ++ [.appd_backend_declare .APPD_BACKEND_HTTP backendTwo]
  let rc := sdk.appd_backend_set_identifying_property backendTwo "HOST".toList
    "ext-api.stoloto.ru".toList
  let calls := calls ++ [.appd_backend_set_identifying_property backendTwo "HOST".toList
    "ext-api.stoloto.ru".toList rc]
  let rc := sdk.appd_backend_set_identifying_property backendTwo "PORT".toList "80".toList
  let calls := calls ++ [.appd_backend_set_identifying_property backendTwo "PORT".toList
    "80".toList rc]
  if rc ≠ 0 then (-1, calls)
  else
    let rc := sdk.appd_backend_prevent_agent_resolution backendTwo
    let calls := calls ++ [.appd_backend_prevent_agent_resolution backendTwo rc]
    if rc ≠ 0 then (-1, calls)
    else
      let rc := sdk.appd_backend_add backendTwo
      let calls := calls ++ [.appd_backend_add backendTwo rc]
      if rc ≠ 0 then (-1, calls ++ [.appd_sdk_term])
      else serve calls srv

open http.server in
/-- The part of `main` from "declare, add backend" on: the registration of `backendOne`,
then of `backendTwo` when `APPDYNAMICS_UPSTREAM_TIER` is unset, then the server. -/
def register_backends (getenv : Str → Option Str) (sdk : Sdk) (srv : ServerFate)
    (calls : List StartupCall) : Int × List StartupCall :=
  let backendOne := "RabbitMQ".toList
  let calls := calls ++ [.appd_backend_declare .APPD_BACKEND_RABBITMQ backendOne]
  let rc := sdk.appd_backend_set_identifying_property backendOne "HOST".toList
    "localhost".toList
  let calls := calls ++ [.appd_backend_set_identifying_property backendOne "HOST".toList
    "localhost".toList rc]
  let rc := sdk.appd_backend_set_identifying_property backendOne "PORT".toList "8081".toList
  let calls := calls ++ [.appd_backend_set_identifying_property backendOne "PORT".toList
    "8081".toList rc]
  let rc := sdk.appd_backend_set_identifying_property backendOne "EXCHANGE".toList
    "MyExchange".toList
  let calls := calls ++ [.appd_backend_set_identifying_property backendOne "EXCHANGE".toList
    "MyExchange".toList rc]
  if rc ≠ 0 then (-1, calls)
  else
    let rc := sdk.appd_backend_prevent_agent_resolution backendOne
    let calls := calls ++ [.appd_backend_prevent_agent_resolution backendOne rc]
    if rc ≠ 0 then (-1, calls)
    else
      let rc := sdk.appd_backend_add backendOne
      let calls := calls ++ [.appd_backend_add backendOne rc]
      if rc ≠ 0 then (-1, calls ++ [.appd_sdk_term])
      else if getenv "APPDYNAMICS_UPSTREAM_TIER".toList = none then
        register_backend_two sdk srv calls
      else serve calls srv

open http.server in
/-- The function `main(argc, argv)`: the value it returns and the calls it made, or `none`
when it dereferences a null pointer (`atoi` or `strcmp` applied to the `NULL` that `getenv`
gives for an unset variable).  The configuration setters have no outcome that `main`
looks at and are left out of the trace. -/
def main (argc : Nat) (getenv : Str → Option Str) (sdk : Sdk) (srv : ServerFate) :
    Option (Int × List StartupCall) :=
  if argc ≠ 4 then some (1, [])
  else
    match getenv "APPDYNAMICS_CONTROLLER_PORT".toList,
        getenv "APPDYNAMICS_CONTROLLER_SSL_ENABLED".toList with
    | none, _ => none
    | some _, none => none
    | some _, some _ =>
      let calls := [StartupCall.appd_sdk_init sdk.appd_sdk_init]
      if sdk.appd_sdk_init = -1 then some (-1, calls)
      else some (register_backends getenv sdk srv calls)

open http.server in
/-- The names of the backends that were declared and then added with success. -/
def registered (calls : List StartupCall) : List Str :=
  calls.filterMap fun call =>
    match call with
    | .appd_backend_add name rc =>
      if rc = 0 ∧ calls.any (fun d =>
          d = .appd_backend_declare .APPD_BACKEND_RABBITMQ name
            ∨ d = .appd_backend_declare .APPD_BACKEND_HTTP name)
      then some name else none
    | _ => none

end startup

namespace http.server
open startup

/-! ## Vocabulary of the specification -/

/-- Whether position `i` of `s` holds a hexadecimal digit. -/
def hex_at (s : Str) (i : Nat) : Bool :=
  match s[i]? with
  | some c => isxdigit c
  | none => false

/-- Every `%` of `s` is immediately followed by two hexadecimal digits. -/
def percent_escaped (s : Str) : Prop :=
  ∀ i, i < s.length → s[i]? = some '%' → hex_at s (i + 1) = true ∧ hex_at s (i + 2) = true

instance (s : Str) : Decidable (percent_escaped s) := by
  unfold percent_escaped
  infer_instance

/-- The reference decoding in the words of the specification: a `%XY` triplet becomes the
byte `16 * hex X + hex Y`, a `+` becomes a space, any other character is copied. -/
def ref_decode : Str → Str
  | [] => []
  | c :: rest =>
    if c = '%' then
      match rest with
      | x :: y :: rest2 => Char.ofNat (16 * hexval x + hexval y) :: ref_decode rest2
      | _ => []
    else if c = '+' then ' ' :: ref_decode rest
    else c :: ref_decode rest

/-- The condition under which the specification has the request refused: decoding fails,
or the decoded path is empty, does not start with `/`, or contains `..`. -/
def invalid_uri (uri : Str) : Prop :=
  (url_decode uri).1 = false ∨ (url_decode uri).2 = []
    ∨ (url_decode uri).2.head? ≠ some '/' ∨ ['.', '.'] <:+: (url_decode uri).2

/-- Whether a trace opens a Transaction Span. -/
def opens_span (tr : List Event) : Bool :=
  tr.any fun e =>
    match e with
    | .bt_begin _ _ => true
    | _ => false

/-- The paths handed to `std::ifstream`, in order. -/
def opened_files (tr : List Event) : List Str :=
  tr.filterMap fun e =>
    match e with
    | .ifstream_open path => some path
    | _ => none

/-- The life of one span. -/
inductive SpanState
  | unopened
  | opened
  | closed
  deriving DecidableEq

/-- How a call moves the Transaction Span: it is opened once, used only while open, and
closed once; `none` marks a call that breaks this. -/
def bt_step (s : SpanState) : Event → Option SpanState
  | .bt_begin _ _ => if s = .unopened then some .opened else none
  | .bt_end => if s = .opened then some .closed else none
  | .bt_set_url _ => if s = .opened then some s else none
  | .bt_add_user_data _ _ => if s = .opened then some s else none
  | .bt_add_error _ _ => if s = .opened then some s else none
  | _ => some s

/-- How a call moves the Exit-Call Span: it is opened once, used only while open, and
closed once; `none` marks a call that breaks this. -/
def exitcall_step (s : SpanState) : Event → Option SpanState
  | .exitcall_begin _ => if s = .unopened then some .opened else none
  | .exitcall_end => if s = .opened then some .closed else none
  | .exitcall_set_details _ => if s = .opened then some s else none
  | .exitcall_get_correlation_header => if s = .opened then some s else none
  | .exitcall_add_error _ _ _ => if s = .opened then some s else none
  | _ => some s

/-- Run a span through a trace. -/
def run_span (step : SpanState → Event → Option SpanState) : SpanState → List Event →
    Option SpanState
  | s, [] => some s
  | s, e :: t =>
    match step s e with
    | some s2 => run_span step s2 t
    | none => none

/-- The span is never opened, or opened and then closed exactly once: it is not left open,
not closed twice, and not touched outside its life. -/
def closed_exactly_once (step : SpanState → Event → Option SpanState) (tr : List Event) :
    Bool :=
  match run_span step .unopened tr with
  | some .unopened => true
  | some .closed => true
  | some .opened => false
  | none => false

/-- The number of Transaction Spans a trace opens. -/
def bt_begins (tr : List Event) : Nat :=
  tr.countP fun e =>
    match e with
    | .bt_begin _ _ => true
    | _ => false

/-- The number of Exit-Call Spans a trace opens. -/
def exitcall_begins (tr : List Event) : Nat :=
  tr.countP fun e =>
    match e with
    | .exitcall_begin _ => true
    | _ => false

/-- The outbound call fails: the text of the exception that leaves the protected region. -/
def failure : Outbound → Option Str
  | .resolve_throws what => some what
  | .connect_throws what => some what
  | .write_throws what => some what
  | .read_throws what => some what
  | .shutdown_error what => some what
  | .shutdown_ok => none
  | .shutdown_not_connected => none

/-- The errors recorded on the Exit-Call Span, in order. -/
def exitcall_errors (tr : List Event) : List Event :=
  tr.filter fun e =>
    match e with
    | .exitcall_add_error _ _ _ => true
    | _ => false

/-- The flag of each error recorded on the Exit-Call Span, in order. -/
def exitcall_error_flags (tr : List Event) : List Bool :=
  tr.filterMap fun e =>
    match e with
    | .exitcall_add_error _ _ flag => some flag
    | _ => none

/-- The calls made on the Transaction Span, in order. -/
def bt_calls (tr : List Event) : List Event :=
  tr.filter fun e =>
    match e with
    | .bt_begin _ _ => true
    | .bt_set_url _ => true
    | .bt_add_user_data _ _ => true
    | .bt_add_error _ _ => true
    | .bt_end => true
    | _ => false

/-- The response status the specification has annotated after the exit call: `200` when it
succeeds, else `502` on the upstream-tier branch and `501` on the other. -/
def response_status (w : World) (net : Outbound) : Str :=
  match failure net with
  | none => "200".toList
  | some _ =>
    if w.getenv "APPDYNAMICS_UPSTREAM_TIER".toList = some "true".toList then "502".toList
    else "501".toList

/-- The same world with another fate for the outbound call. -/
def with_outbound (w : World) (net : Outbound) : World :=
  { file := w.file, getenv := w.getenv, outbound := net,
    extension_to_type := w.extension_to_type, stock_content := w.stock_content,
    stock_headers := w.stock_headers }

/-- The backends named in the `exitcall_begin` calls of a trace. -/
def exitcall_backends (tr : List Event) : List Str :=
  tr.filterMap fun e =>
    match e with
    | .exitcall_begin backend => some backend
    | _ => none

/-- Start-up succeeds: `main` gets as far as running the server. -/
def startup_succeeds (r : Option (Int × List StartupCall)) : Bool :=
  match r with
  | some (_, calls) => decide (StartupCall.server_run ∈ calls)
  | none => false

/-- The value `main` returns, when it returns. -/
def exit_code (r : Option (Int × List StartupCall)) : Option Int :=
  r.map fun p => p.1

/-- The backends `main` declared and added to the registry. -/
def registry (r : Option (Int × List StartupCall)) : List Str :=
  match r with
  | some (_, calls) => registered calls
  | none => []

/-! ## Sample inputs -/

/-- A process environment in which every variable but `APPDYNAMICS_UPSTREAM_TIER` is set. -/
def sample_env (tier : Option Str) : Str → Option Str :=
  fun name => if name = "APPDYNAMICS_UPSTREAM_TIER".toList then tier else some "1".toList

/-- A world whose document root `.` holds `index.html` with the body `hi`. -/
def sample_world (tier : Option Str) (net : Outbound) : World :=
  { file := fun p => if p = "./index.html".toList then some "hi".toList else none
    getenv := sample_env tier
    outbound := net
    extension_to_type := fun e =>
      if e = "html".toList then "text/html".toList else "text/plain".toList
    stock_content := fun _ => []
    stock_headers := fun _ => [] }

/-- The handler serving the document root `.`. -/
def sample_handler : request_handler := { doc_root_ := ".".toList }

/-- A `GET` request for a URI, without headers. -/
def get (uri : String) : request := { method := "GET".toList, uri := uri.toList, headers := [] }

/-- A freshly constructed reply. -/
def empty_reply : reply := { status := .other 0, headers := [], content := [] }

/-- An SDK all of whose calls succeed. -/
def sdk_ok : Sdk :=
  { appd_sdk_init := 0
    appd_backend_set_identifying_property := fun _ _ _ => 0
    appd_backend_prevent_agent_resolution := fun _ => 0
    appd_backend_add := fun _ => 0 }

/-- An SDK that fails to set the `HOST` property of `RabbitMQ` and succeeds at all else. -/
def sdk_host_fails : Sdk :=
  { appd_sdk_init := 0
    appd_backend_set_identifying_property := fun name key _ =>
      if name = "RabbitMQ".toList ∧ key = "HOST".toList then 1 else 0
    appd_backend_prevent_agent_resolution := fun _ => 0
    appd_backend_add := fun _ => 0 }

/-! ## Facts about characters and hexadecimal extraction -/

theorem toNat_of_isxdigit {c : Char} (h : isxdigit c = true) :
    (48 ≤ c.toNat ∧ c.toNat ≤ 57) ∨ (97 ≤ c.toNat ∧ c.toNat ≤ 102)
      ∨ (65 ≤ c.toNat ∧ c.toNat ≤ 70) := by
  simpa [isxdigit, or_assoc] using h

theorem hexval_le (c : Char) : hexval c ≤ 15 := by
  unfold hexval
  split_ifs <;> omega

theorem isspace_of_isxdigit {c : Char} (h : isxdigit c = true) : isspace c = false := by
  have hc := toNat_of_isxdigit h
  simp only [isspace, Bool.or_eq_false_iff, Bool.and_eq_false_iff, decide_eq_false_iff_not]
  omega

theorem ne_of_isxdigit {c d : Char} (h : isxdigit c = true) (hd : isxdigit d = false) :
    c ≠ d := by
  intro e
  rw [e, hd] at h
  exact Bool.false_ne_true h

theorem hex_extract_two_digits {a b : Char} (ha : isxdigit a = true) (hb : isxdigit b = true) :
    hex_extract [a, b] = some ((16 * hexval a + hexval b : Nat) : Int) := by
  have hs : isspace a = false := isspace_of_isxdigit ha
  have h1 : a ≠ '-' := ne_of_isxdigit ha (by decide)
  have h2 : a ≠ '+' := ne_of_isxdigit ha (by decide)
  have h3 : b ≠ 'x' := ne_of_isxdigit hb (by decide)
  have h4 : b ≠ 'X' := ne_of_isxdigit hb (by decide)
  have ha15 := hexval_le a
  have hb15 := hexval_le b
  have hr : INT_MIN ≤ ((16 * hexval a + hexval b : Nat) : Int)
      ∧ ((16 * hexval a + hexval b : Nat) : Int) ≤ INT_MAX := by
    unfold INT_MIN INT_MAX
    constructor <;> omega
  simp [hex_extract, List.dropWhile, hs, take_sign, h1, h2, skip_0x, h3, h4, List.takeWhile,
    ha, hb]
  simpa using hr

theorem static_cast_char_byte (n : Nat) (h : n < 256) :
    static_cast_char (n : Int) = Char.ofNat n := by
  unfold static_cast_char
  congr 1
  omega

/-! ## Facts about `url_decode` -/

theorem percent_escaped_tail {c : Char} {t : Str} (h : percent_escaped (c :: t)) :
    percent_escaped t := by
  intro i hi hp
  have := h (i + 1) (by simpa using hi) (by simpa using hp)
  simpa [hex_at] using this

theorem percent_escaped_head {t : Str} (h : percent_escaped ('%' :: t)) :
    ∃ a b t2, t = a :: b :: t2 ∧ isxdigit a = true ∧ isxdigit b = true := by
  have h0 := h 0 (by simp) (by simp)
  match t, h0 with
  | [], h0 => simp [hex_at] at h0
  | [_], h0 => simp [hex_at] at h0
  | a :: b :: t2, h0 => exact ⟨a, b, t2, rfl, by simpa [hex_at] using h0⟩

theorem url_decode_loop_other (c : Char) (t out : Str) (h : c ≠ '%') :
    url_decode_loop (c :: t) out
      = if c = '+' then url_decode_loop t (out ++ [' ']) else url_decode_loop t (out ++ [c]) := by
  rw [url_decode_loop.eq_def]
  simp [h]

theorem url_decode_loop_percent (a b : Char) (t out : Str) :
    url_decode_loop ('%' :: a :: b :: t) out
      = match hex_extract [a, b] with
        | some value => url_decode_loop t (out ++ [static_cast_char value])
        | none => (false, out) := by
  rw [url_decode_loop.eq_def]
  simp

theorem ref_decode_other (c : Char) (t : Str) (h : c ≠ '%') :
    ref_decode (c :: t) = if c = '+' then ' ' :: ref_decode t else c :: ref_decode t := by
  rw [ref_decode.eq_def]
  simp [h]

theorem ref_decode_percent (a b : Char) (t : Str) :
    ref_decode ('%' :: a :: b :: t) = Char.ofNat (16 * hexval a + hexval b) :: ref_decode t := by
  rw [ref_decode.eq_def]
  simp

theorem url_decode_loop_escaped (n : Nat) :
    ∀ (inp out : Str), inp.length ≤ n → percent_escaped inp →
      url_decode_loop inp out = (true, out ++ ref_decode inp) := by
  induction n with
  | zero =>
    intro inp out hn _
    have : inp = [] := List.length_eq_zero.mp (Nat.le_zero.mp hn)
    subst this
    simp [url_decode_loop, ref_decode]
  | succ n ih =>
    intro inp out hn he
    match inp, hn, he with
    | [], _, _ => simp [url_decode_loop, ref_decode]
    | c :: t, hn, he =>
      have hlen : t.length ≤ n := by simpa using hn
      by_cases hc : c = '%'
      · subst hc
        obtain ⟨a, b, t2, rfl, ha, hb⟩ := percent_escaped_head he
        have he2 : percent_escaped t2 :=
          percent_escaped_tail (percent_escaped_tail (percent_escaped_tail he))
        have hl2 : t2.length ≤ n := by
          simp only [List.length_cons] at hlen
          omega
        have hv : 16 * hexval a + hexval b < 256 := by
          have := hexval_le a
          have := hexval_le b
          omega
        rw [url_decode_loop_percent, ref_decode_percent, hex_extract_two_digits ha hb]
        simp only [static_cast_char_byte _ hv]
        rw [ih t2 _ hl2 he2]
        simp
      · have het := percent_escaped_tail he
        rw [url_decode_loop_other c t out hc, ref_decode_other c t hc]
        by_cases hp : c = '+'
        · simp only [hp, if_true]
          rw [ih t _ hlen het]
          simp
        · simp only [hp, if_false]
          rw [ih t _ hlen het]
          simp

theorem ref_decode_length (n : Nat) :
    ∀ (inp : Str), inp.length ≤ n → percent_escaped inp →
      (ref_decode inp).length + 2 * inp.count '%' = inp.length := by
  induction n with
  | zero =>
    intro inp hn _
    have : inp = [] := List.length_eq_zero.mp (Nat.le_zero.mp hn)
    subst this
    simp [ref_decode]
  | succ n ih =>
    intro inp hn he
    match inp, hn, he with
    | [], _, _ => simp [ref_decode]
    | c :: t, hn, he =>
      have hlen : t.length ≤ n := by simpa using hn
      by_cases hc : c = '%'
      · subst hc
        obtain ⟨a, b, t2, rfl, ha, hb⟩ := percent_escaped_head he
        have he2 : percent_escaped t2 :=
          percent_escaped_tail (percent_escaped_tail (percent_escaped_tail he))
        have hl2 : t2.length ≤ n := by
          simp only [List.length_cons] at hlen
          omega
        have hna : a ≠ '%' := ne_of_isxdigit ha (by decide)
        have hnb : b ≠ '%' := ne_of_isxdigit hb (by decide)
        have := ih t2 hl2 he2
        rw [ref_decode_percent]
        simp only [List.length_cons, List.count_cons_self,
          List.count_cons_of_ne hna.symm, List.count_cons_of_ne hnb.symm]
        omega
      · have het := percent_escaped_tail he
        have := ih t hlen het
        have hc2 : '%' ≠ c := fun e => hc e.symm
        rw [ref_decode_other c t hc]
        by_cases hp : c = '+'
        · subst hp
          simp only [if_true, List.length_cons, List.count_cons_of_ne hc2]
          omega
        · simp only [hp, if_false, List.length_cons, List.count_cons_of_ne hc2]
          omega

/-! ## Facts about the string operations -/

theorem find_isSome_iff (s pat : Str) : (find s pat).isSome = true ↔ pat <:+: s := by
  induction s with
  | nil =>
    by_cases h : pat = [] <;> simp [find, h]
  | cons c t ih =>
    rw [List.infix_cons_iff, ← ih, find]
    by_cases h : pat.isPrefixOf (c :: t) = true
    · have hp : pat <+: c :: t := List.isPrefixOf_iff_prefix.mp h
      simp [h, hp]
    · have hp : ¬ pat <+: c :: t := fun hp => h (List.isPrefixOf_iff_prefix.mpr hp)
      simp [h, hp]

theorem rejected_iff (path : Str) :
    rejected path = true
      ↔ path = [] ∨ path.head? ≠ some '/' ∨ ['.', '.'] <:+: path := by
  unfold rejected
  rw [Bool.or_eq_true, Bool.or_eq_true, find_isSome_iff, or_assoc]
  simp

theorem rejected_eq_false_iff (path : Str) :
    rejected path = false
      ↔ path ≠ [] ∧ path.head? = some '/' ∧ ¬ ['.', '.'] <:+: path := by
  rw [← Bool.not_eq_true, rejected_iff]
  tauto

theorem dotdot_infix_cons {c : Char} {t : Str} (h : ['.', '.'] <:+: c :: t) :
    (c = '.' ∧ ∃ t2, t = '.' :: t2) ∨ ['.', '.'] <:+: t := by
  rcases List.infix_cons_iff.mp h with hp | hi
  · left
    match t, hp with
    | [], hp =>
      have := hp.length_le
      simp at this
    | d :: t2, hp =>
      rw [List.cons_prefix_cons, List.cons_prefix_cons] at hp
      exact ⟨hp.1.symm, t2, by rw [hp.2.1]⟩
  · exact Or.inr hi

theorem ref_decode_dotdot (n : Nat) :
    ∀ (inp : Str), inp.length ≤ n → percent_escaped inp → ['.', '.'] <:+: inp →
      ['.', '.'] <:+: ref_decode inp := by
  induction n with
  | zero =>
    intro inp hn _ hin
    have : inp = [] := List.length_eq_zero.mp (Nat.le_zero.mp hn)
    subst this
    simp at hin
  | succ n ih =>
    intro inp hn he hin
    match inp, hn, he, hin with
    | [], _, _, hin => simp at hin
    | c :: t, hn, he, hin =>
      have hlen : t.length ≤ n := by simpa using hn
      by_cases hc : c = '%'
      · subst hc
        obtain ⟨a, b, t2, rfl, ha, hb⟩ := percent_escaped_head he
        have he2 : percent_escaped t2 :=
          percent_escaped_tail (percent_escaped_tail (percent_escaped_tail he))
        have hl2 : t2.length ≤ n := by
          simp only [List.length_cons] at hlen
          omega
        have hna : a ≠ '.' := ne_of_isxdigit ha (by decide)
        have hnb : b ≠ '.' := ne_of_isxdigit hb (by decide)
        have h1 : ['.', '.'] <:+: a :: b :: t2 := by
          rcases dotdot_infix_cons hin with h | h
          · exact absurd h.1 (by decide)
          · exact h
        have h2 : ['.', '.'] <:+: b :: t2 := by
          rcases dotdot_infix_cons h1 with h | h
          · exact absurd h.1 hna
          · exact h
        have h3 : ['.', '.'] <:+: t2 := by
          rcases dotdot_infix_cons h2 with h | h
          · exact absurd h.1 hnb
          · exact h
        rw [ref_decode_percent]
        exact List.infix_cons (ih t2 hl2 he2 h3)
      · have het := percent_escaped_tail he
        rw [ref_decode_other c t hc]
        rcases dotdot_infix_cons hin with ⟨hdot, t2, rfl⟩ | h
        · subst hdot
          rw [ref_decode_other '.' t2 (by decide)]
          simp only [show ¬ ('.' = '+') by decide, if_false]
          exact ⟨[], ref_decode t2, by simp⟩
        · have := ih t hlen het h
          by_cases hp : c = '+'
          · simp only [hp, if_true]
            exact List.infix_cons this
          · simp only [hp, if_false]
            exact List.infix_cons this

theorem read_loop_eq (fuel : Nat) :
    ∀ (unread content : Str), unread.length < fuel →
      read_loop fuel unread content = content ++ unread := by
  induction fuel with
  | zero => intro unread content h; omega
  | succ fuel ih =>
    intro unread content h
    unfold read_loop
    by_cases hpos : (unread.take 512).length > 0
    · have hlt : (unread.drop 512).length < fuel := by
        have : 0 < unread.length := by
          rcases unread with _ | ⟨c, t⟩
          · simp at hpos
          · simp
        simp only [List.length_drop]
        omega
      simp only [hpos, if_true]
      rw [ih _ _ hlt, List.append_assoc, List.take_append_drop]
    · have : unread = [] := by
        rcases unread with _ | ⟨c, t⟩
        · rfl
        · simp at hpos
      subst this
      simp

theorem resize_two (v : List header) : ∃ a b, resize v 2 = [a, b] := by
  unfold resize
  rcases v with _ | ⟨a, _ | ⟨b, t⟩⟩
  · exact ⟨_, _, rfl⟩
  · exact ⟨_, _, rfl⟩
  · exact ⟨a, b, rfl⟩

theorem fill_reply_eq (w : World) (rep : reply) (bytes extension : Str) :
    fill_reply w rep bytes extension
      = { status := .ok,
          headers := [header.mk "Content-Length".toList (to_string (rep.content ++ bytes).length),
            header.mk "Content-Type".toList (w.extension_to_type extension)],
          content := rep.content ++ bytes } := by
  obtain ⟨a, b, hab⟩ := resize_two rep.headers
  unfold fill_reply
  rw [read_loop_eq _ _ _ (Nat.lt_succ_self _)]
  simp [hab]

/-! ## The branches of `handle_request` -/

theorem handle_request_of_decode_failure (self : request_handler) (w : World) (req : request)
    (rep : reply) (h : (url_decode req.uri).1 = false) :
    handle_request self w req rep = (stock_reply w .bad_request, []) := by
  unfold handle_request
  rcases hd : url_decode req.uri with ⟨b, path⟩
  rw [hd] at h
  simp only at h
  subst h
  rfl

theorem handle_request_of_rejected (self : request_handler) (w : World) (req : request)
    (rep : reply) (path : Str) (hd : url_decode req.uri = (true, path))
    (hr : rejected path = true) :
    handle_request self w req rep = (stock_reply w .bad_request, []) := by
  unfold handle_request
  rw [hd]
  simp [hr]

theorem handle_request_of_accepted (self : request_handler) (w : World) (req : request)
    (rep : reply) (path : Str) (hd : url_decode req.uri = (true, path))
    (hr : rejected path = false) :
    handle_request self w req rep
      = match w.file (c_str (self.doc_root_ ++ add_index path)) with
        | none =>
          (stock_reply w .not_found,
            [ .bt_begin (substr path 0 (find_last_of path ['/']))
                (singularityheader req.headers),
              .bt_set_url path,
              .bt_add_user_data "HTTP-Request-Method".toList req.method,
              .ifstream_open (c_str (self.doc_root_ ++ add_index path)),
              .bt_add_error .APPD_LEVEL_ERROR "404 - Not found".toList,
              .bt_add_user_data "HTTP-Response-Status".toList "404".toList,
              .bt_end ])
        | some bytes =>
          (fill_reply w rep bytes (extension_of (add_index path)),
            [ .bt_begin (substr path 0 (find_last_of path ['/']))
                (singularityheader req.headers),
              .bt_set_url path,
              .bt_add_user_data "HTTP-Request-Method".toList req.method,
              .ifstream_open (c_str (self.doc_root_ ++ add_index path)) ]
              ++ exit_call_section w (add_index path)) := by
  unfold handle_request
  rw [hd]
  simp only [hr]
  cases w.file (c_str (self.doc_root_ ++ add_index path)) <;> simp

theorem url_decode_escaped (inp : Str) (h : percent_escaped inp) :
    url_decode inp = (true, ref_decode inp) := by
  unfold url_decode
  rw [url_decode_loop_escaped inp.length inp [] (Nat.le_refl _) h]
  simp

/-- The calls of the exit-call section, whatever the branch and the fate of the call. -/
theorem exit_call_section_eq (w : World) (p : Str) :
    ∃ backend inside,
      (inside = [] ∨ inside = [Event.exitcall_get_correlation_header])
        ∧ exit_call_section w p
          = [Event.exitcall_begin backend, Event.exitcall_set_details backend] ++ inside
            ++ (match failure w.outbound with
                | some what => [Event.exitcall_add_error .APPD_LEVEL_ERROR what true]
                | none => [])
            ++ [Event.exitcall_end,
                Event.bt_add_user_data "HTTP-Response-Status".toList
                  (response_status w w.outbound),
                Event.bt_end] := by
  unfold exit_call_section response_status make_exit_call
  by_cases henv : w.getenv "APPDYNAMICS_UPSTREAM_TIER".toList = some "true".toList
  · simp only [henv, if_true]
    refine ⟨"RabbitMQ".toList, (exit_call_try w.outbound).1, ?_, ?_⟩
    · cases w.outbound <;> simp [exit_call_try]
    · cases w.outbound <;> simp [exit_call_try, failure]
  · simp only [henv, if_false]
    refine ⟨"http://ext-api.stoloto.ru".toList, (exit_call_try w.outbound).1, ?_, ?_⟩
    · cases w.outbound <;> simp [exit_call_try]
    · cases w.outbound <;> simp [exit_call_try, failure]

theorem accepted_of_not_invalid {uri : Str} (h : ¬ invalid_uri uri) :
    url_decode uri = (true, (url_decode uri).2) ∧ rejected (url_decode uri).2 = false := by
  unfold invalid_uri at h
  rcases hd : url_decode uri with ⟨b, path⟩
  rw [hd] at h
  simp only [not_or] at h
  obtain ⟨hb, hrest⟩ := h
  have hb2 : b = true := by simpa using hb
  subst hb2
  refine ⟨rfl, ?_⟩
  rw [rejected_eq_false_iff]
  exact ⟨hrest.1, by simpa using hrest.2.1, hrest.2.2⟩

theorem find_last_of_append (s t chars : Str) (k : Nat) (h : find_last_of t chars = some k) :
    find_last_of (s ++ t) chars = some (s.length + k) := by
  induction s with
  | nil => simpa using h
  | cons c s ih =>
    have hstep : find_last_of (c :: (s ++ t)) chars = some (s.length + k + 1) := by
      rw [find_last_of, ih]
    rw [List.cons_append, hstep, List.length_cons]
    congr 1
    omega

theorem extension_of_index (path : Str) (h : path.getLast? = some '/') :
    extension_of (path ++ "index.html".toList) = "html".toList := by
  obtain ⟨p, rfl⟩ := List.getLast?_eq_some_iff.mp h
  have hs : find_last_of (p ++ "/index.html".toList) ['/'] = some (p.length + 0) :=
    find_last_of_append p _ _ 0 (by decide)
  have hdot : find_last_of (p ++ "/index.html".toList) ['.'] = some (p.length + 6) :=
    find_last_of_append p _ _ 6 (by decide)
  have he : p ++ ['/'] ++ "index.html".toList = p ++ "/index.html".toList := by simp
  rw [he]
  unfold extension_of
  simp only [hs, hdot, substr]
  rw [if_pos (by omega), Nat.add_assoc, List.drop_append]
  decide

theorem c_str_eq_self (s : Str) (h : Char.ofNat 0 ∉ s) : c_str s = s := by
  unfold c_str
  rw [List.takeWhile_eq_self_iff]
  intro c hc
  have : c ≠ Char.ofNat 0 := fun e => h (e ▸ hc)
  simpa using this

theorem opened_files_of_accepted (self : request_handler) (w : World) (req : request)
    (rep : reply) (path : Str) (hd : url_decode req.uri = (true, path))
    (hr : rejected path = false) :
    opened_files (handle_request self w req rep).2
      = [c_str (self.doc_root_ ++ add_index path)] := by
  rw [handle_request_of_accepted self w req rep path hd hr]
  cases w.file (c_str (self.doc_root_ ++ add_index path)) with
  | none => simp [opened_files]
  | some bytes =>
    obtain ⟨backend, inside, hin, hsec⟩ := exit_call_section_eq w (add_index path)
    rw [hsec]
    rcases hin with rfl | rfl <;> cases failure w.outbound <;> simp [opened_files]

theorem reply_of_with_outbound (self : request_handler) (w : World) (req : request)
    (rep : reply) (net : Outbound) :
    (handle_request self (with_outbound w net) req rep).1
      = (handle_request self w req rep).1 := by
  rcases hd : url_decode req.uri with ⟨b, path⟩
  cases b with
  | false =>
    rw [handle_request_of_decode_failure self _ req rep (by rw [hd]),
      handle_request_of_decode_failure self _ req rep (by rw [hd])]
    rfl
  | true =>
    by_cases hr : rejected path = true
    · rw [handle_request_of_rejected self _ req rep path hd hr,
        handle_request_of_rejected self _ req rep path hd hr]
      rfl
    · have hr2 : rejected path = false := by simpa using hr
      rw [handle_request_of_accepted self _ req rep path hd hr2,
        handle_request_of_accepted self _ req rep path hd hr2]
      have hfile : (with_outbound w net).file = w.file := rfl
      rw [hfile]
      cases w.file (c_str (self.doc_root_ ++ add_index path)) with
      | none => rfl
      | some bytes => rfl

theorem begins_of_accepted (self : request_handler) (w : World) (req : request)
    (rep : reply) (path : Str) (hd : url_decode req.uri = (true, path))
    (hr : rejected path = false) :
    bt_begins (handle_request self w req rep).2 = 1
      ∧ ((handle_request self w req rep).1.status = .ok →
          exitcall_begins (handle_request self w req rep).2 = 1) := by
  rw [handle_request_of_accepted self w req rep path hd hr]
  cases w.file (c_str (self.doc_root_ ++ add_index path)) with
  | none => simp [bt_begins, stock_reply]
  | some bytes =>
    obtain ⟨backend, inside, hin, hsec⟩ := exit_call_section_eq w (add_index path)
    rw [hsec]
    rcases hin with rfl | rfl <;> cases failure w.outbound <;>
      simp [bt_begins, exitcall_begins]

/-- A URI that contains `..` is refused without a span whenever its escapes are all well
formed or its decoding fails: the dots then reach the decoded path untouched. -/
theorem dotdot_refused_of_escaped (self : request_handler) (w : World) (req : request)
    (rep : reply) (hdots : ['.', '.'] <:+: req.uri)
    (hesc : percent_escaped req.uri ∨ (url_decode req.uri).1 = false) :
    (handle_request self w req rep).1 = stock_reply w .bad_request
      ∧ opens_span (handle_request self w req rep).2 = false := by
  rcases hesc with hesc | hfail
  · have hd := url_decode_escaped req.uri hesc
    have hin := ref_decode_dotdot req.uri.length req.uri (Nat.le_refl _) hesc hdots
    have hr : rejected (ref_decode req.uri) = true :=
      (rejected_iff _).mpr (Or.inr (Or.inr hin))
    rw [handle_request_of_rejected self w req rep _ hd hr]
    exact ⟨rfl, rfl⟩
  · rw [handle_request_of_decode_failure self w req rep hfail]
    exact ⟨rfl, rfl⟩

/-! ## The claims -/

/-- C1 fails on the code at the URI `/%2../b`: the URI contains `..`, yet `url_decode`
takes `%2.` as an escape (the extraction reads `2` and stops at the dot) and so swallows the
first dot; the decoded path `/\x02./b` passes validation, a Transaction Span is opened and
the reply is not the stock `bad_request` reply. -/
theorem dotdot_uri_served :
    ['.', '.'] <:+: (get "/%2../b").uri
      ∧ url_decode (get "/%2../b").uri = (true, ['/', Char.ofNat 2, '.', '/', 'b'])
      ∧ ¬ ((handle_request sample_handler (sample_world none .shutdown_ok) (get "/%2../b")
              empty_reply).1 = stock_reply (sample_world none .shutdown_ok) .bad_request
            ∧ opens_span (handle_request sample_handler (sample_world none .shutdown_ok)
              (get "/%2../b") empty_reply).2 = false) := by
  refine ⟨by decide, by decide, ?_⟩
  decide

/-- C2: `handle_request` produces the stock `bad_request` reply and opens no Transaction Span
if and only if `url_decode` fails on the URI, or the decoded path is empty, or it does not
start with `/`, or it contains `..`; in every other case a Transaction Span is opened and the
reply status is `ok` or `not_found`. -/
theorem bad_request_iff_invalid_uri (self : request_handler) (w : World) (req : request)
    (rep : reply) :
    (((handle_request self w req rep).1 = stock_reply w .bad_request
          ∧ opens_span (handle_request self w req rep).2 = false) ↔ invalid_uri req.uri)
      ∧ (¬ invalid_uri req.uri →
          opens_span (handle_request self w req rep).2 = true
            ∧ ((handle_request self w req rep).1.status = .ok
                ∨ (handle_request self w req rep).1.status = .not_found)) := by
  unfold invalid_uri
  rcases hd : url_decode req.uri with ⟨b, path⟩
  cases b with
  | false =>
    rw [handle_request_of_decode_failure self w req rep (by rw [hd])]
    simp [opens_span]
  | true =>
    by_cases hr : rejected path = true
    · rw [handle_request_of_rejected self w req rep path hd hr]
      have := (rejected_iff path).mp hr
      simp [opens_span, this]
    · have hr2 : rejected path = false := by simpa using hr
      have hv := (rejected_eq_false_iff path).mp hr2
      have hinv : ¬ (path = [] ∨ path.head? ≠ some '/' ∨ ['.', '.'] <:+: path) := by
        rw [← rejected_iff]
        exact hr
      rw [handle_request_of_accepted self w req rep path hd hr2]
      cases w.file (c_str (self.doc_root_ ++ add_index path)) with
      | none => simp [opens_span, stock_reply, hinv]
      | some bytes => simp [opens_span, fill_reply_eq, hinv]

/-- C2 at two requests: `/a/../b` is refused without a span; `/index.html`, a valid path, has
a span opened and the status `ok`. -/
theorem bad_request_iff_invalid_uri_witness :
    (invalid_uri (get "/a/../b").uri
        ∧ (handle_request sample_handler (sample_world none .shutdown_ok) (get "/a/../b")
            empty_reply).1 = stock_reply (sample_world none .shutdown_ok) .bad_request)
      ∧ (¬ invalid_uri (get "/index.html").uri
        ∧ opens_span (handle_request sample_handler (sample_world none .shutdown_ok)
            (get "/index.html") empty_reply).2 = true
        ∧ ((handle_request sample_handler (sample_world none .shutdown_ok)
              (get "/index.html") empty_reply).1.status = .ok
            ∨ (handle_request sample_handler (sample_world none .shutdown_ok)
              (get "/index.html") empty_reply).1.status = .not_found)) :=
  have hbad : invalid_uri (get "/a/../b").uri := Or.inr (Or.inr (Or.inr (by decide)))
  have hgood : ¬ invalid_uri (get "/index.html").uri := by
    unfold invalid_uri
    decide
  ⟨⟨hbad, (((bad_request_iff_invalid_uri sample_handler (sample_world none .shutdown_ok)
      (get "/a/../b") empty_reply).1).mpr hbad).1⟩,
    hgood, (bad_request_iff_invalid_uri sample_handler (sample_world none .shutdown_ok)
      (get "/index.html") empty_reply).2 hgood⟩

/-- C3 fails on the code at `%2g` and `/%2g`: the `%` is followed by `2g`, which is not two
hexadecimal digits, yet `url_decode` returns true (the extraction reads `2` and stops at
`g`), and `handle_request` given `/%2g` opens a span and replies `not_found`, not
`bad_request`. -/
theorem url_decode_accepts_non_hex :
    ¬ percent_escaped "%2g".toList
      ∧ url_decode "%2g".toList = (true, [Char.ofNat 2])
      ∧ url_decode "/%2g".toList = (true, ['/', Char.ofNat 2])
      ∧ opens_span (handle_request sample_handler (sample_world none .shutdown_ok)
          (get "/%2g") empty_reply).2 = true
      ∧ (handle_request sample_handler (sample_world none .shutdown_ok) (get "/%2g")
          empty_reply).1.status = .not_found := by
  refine ⟨by decide, by decide, by decide, by decide, by decide⟩

/-- C4: for every input in which each `%` is immediately followed by two hexadecimal digits,
`url_decode` returns true and its output is the reference decoding (each `%XY` becomes the
byte `16 * hex X + hex Y`, each `+` a space, every other character is copied in order); the
output length is the input length minus twice the number of `%` characters. -/
theorem url_decode_reference (inp : Str) (h : percent_escaped inp) :
    url_decode inp = (true, ref_decode inp)
      ∧ (url_decode inp).2.length = inp.length - 2 * inp.count '%' := by
  have hd := url_decode_escaped inp h
  have hl := ref_decode_length inp.length inp (Nat.le_refl _) h
  rw [hd]
  refine ⟨rfl, ?_⟩
  simp only
  omega

/-- C4 at `/a%20b+c%2Fd`: the decoding succeeds with `/a b c/d`, four bytes shorter. -/
theorem url_decode_reference_witness :
    percent_escaped "/a%20b+c%2Fd".toList
      ∧ ref_decode "/a%20b+c%2Fd".toList = "/a b c/d".toList
      ∧ url_decode "/a%20b+c%2Fd".toList = (true, ref_decode "/a%20b+c%2Fd".toList)
      ∧ (url_decode "/a%20b+c%2Fd".toList).2.length
          = "/a%20b+c%2Fd".toList.length - 2 * "/a%20b+c%2Fd".toList.count '%' :=
  ⟨by decide, by decide, url_decode_reference "/a%20b+c%2Fd".toList (by decide)⟩

/-- C5, as the code has it: for every request whose decoded path passes validation
(non-empty, starts with `/`, no `..`) and ends in `/`, the resource path is the decoded path
followed by `index.html` and the extension used for the Content-Type mapping is `html`;
when neither the document root nor the decoded path holds a NUL byte, the one file opened is
`doc_root + path + "index.html"`; and a reply with status `ok` carries the Content-Type of
`html`. -/
theorem directory_index_served (self : request_handler) (w : World) (req : request)
    (rep : reply) (hvalid : ¬ invalid_uri req.uri)
    (hslash : (url_decode req.uri).2.getLast? = some '/') :
    add_index (url_decode req.uri).2 = (url_decode req.uri).2 ++ "index.html".toList
      ∧ extension_of (add_index (url_decode req.uri).2) = "html".toList
      ∧ (Char.ofNat 0 ∉ self.doc_root_ ++ (url_decode req.uri).2 →
          opened_files (handle_request self w req rep).2
            = [self.doc_root_ ++ (url_decode req.uri).2 ++ "index.html".toList])
      ∧ ((handle_request self w req rep).1.status = .ok →
          header.mk "Content-Type".toList (w.extension_to_type "html".toList)
            ∈ (handle_request self w req rep).1.headers) := by
  obtain ⟨hd, hr⟩ := accepted_of_not_invalid hvalid
  generalize (url_decode req.uri).2 = path at hd hr hslash ⊢
  have hidx : add_index path = path ++ "index.html".toList := by
    unfold add_index
    rw [if_pos hslash]
  have hext := extension_of_index path hslash
  refine ⟨hidx, by rw [hidx, hext], ?_, ?_⟩
  · intro hnul
    rw [opened_files_of_accepted self w req rep path hd hr, hidx, ← List.append_assoc,
      c_str_eq_self]
    intro hmem
    apply hnul
    rcases List.mem_append.mp hmem with h | h
    · exact h
    · exact absurd h (by decide)
  · rw [handle_request_of_accepted self w req rep path hd hr]
    cases w.file (c_str (self.doc_root_ ++ add_index path)) with
    | none => simp [stock_reply]
    | some bytes =>
      intro _
      simp only [fill_reply_eq, hidx, hext]
      simp

/-- C5 at the request `/`: the decoded path `/` is valid, ends in `/` and holds no NUL byte;
the file opened is `./index.html` and the reply carries `Content-Type: text/html`. -/
theorem directory_index_served_witness :
    (¬ invalid_uri (get "/").uri ∧ (url_decode (get "/").uri).2.getLast? = some '/')
      ∧ opened_files (handle_request sample_handler (sample_world none .shutdown_ok)
          (get "/") empty_reply).2 = ["./index.html".toList]
      ∧ header.mk "Content-Type".toList "text/html".toList
          ∈ (handle_request sample_handler (sample_world none .shutdown_ok) (get "/")
              empty_reply).1.headers :=
  have hvalid : ¬ invalid_uri (get "/").uri := by
    unfold invalid_uri
    decide
  ⟨⟨hvalid, by decide⟩,
    (directory_index_served sample_handler (sample_world none .shutdown_ok) (get "/")
      empty_reply hvalid (by decide)).2.2.1 (by decide),
    (directory_index_served sample_handler (sample_world none .shutdown_ok) (get "/")
      empty_reply hvalid (by decide)).2.2.2 (by decide)⟩

/-- C5 as stated fails at the URI `/%00/`: the decoded path `/`, NUL, `/` passes validation
and ends in `/`, yet the file opened is `./`, the C string of `./\0/index.html`, and not
`doc_root + path + "index.html"`. -/
theorem directory_index_cut_at_nul :
    ¬ invalid_uri (get "/%00/").uri
      ∧ (url_decode (get "/%00/").uri).2 = ['/', Char.ofNat 0, '/']
      ∧ (url_decode (get "/%00/").uri).2.getLast? = some '/'
      ∧ opened_files (handle_request sample_handler (sample_world none .shutdown_ok)
          (get "/%00/") empty_reply).2 = ["./".toList]
      ∧ opened_files (handle_request sample_handler (sample_world none .shutdown_ok)
          (get "/%00/") empty_reply).2
        ≠ [sample_handler.doc_root_ ++ (url_decode (get "/%00/").uri).2
            ++ "index.html".toList] := by
  refine ⟨?_, by decide, by decide, by decide, by decide⟩
  unfold invalid_uri
  decide

/-- C6: in the trace of one call of `handle_request`, the Transaction Span and the Exit-Call
Span are each either never opened or opened and closed exactly once, on every exit path
(refusal, file not found, exit-call success, exit-call failure): there are as many closes
as opens, no span is left open and none is closed twice.  A valid request opens one
Transaction Span, and a reply with status `ok` comes with one Exit-Call Span. -/
theorem spans_closed_exactly_once (self : request_handler) (w : World) (req : request)
    (rep : reply) :
    closed_exactly_once bt_step (handle_request self w req rep).2 = true
      ∧ closed_exactly_once exitcall_step (handle_request self w req rep).2 = true
      ∧ (handle_request self w req rep).2.count Event.bt_end
          = bt_begins (handle_request self w req rep).2
      ∧ (handle_request self w req rep).2.count Event.exitcall_end
          = exitcall_begins (handle_request self w req rep).2
      ∧ (¬ invalid_uri req.uri →
          bt_begins (handle_request self w req rep).2 = 1
            ∧ ((handle_request self w req rep).1.status = .ok →
                exitcall_begins (handle_request self w req rep).2 = 1)) := by
  have hlast : ¬ invalid_uri req.uri →
      bt_begins (handle_request self w req rep).2 = 1
        ∧ ((handle_request self w req rep).1.status = .ok →
            exitcall_begins (handle_request self w req rep).2 = 1) := by
    intro hvalid
    obtain ⟨hd, hr⟩ := accepted_of_not_invalid hvalid
    exact begins_of_accepted self w req rep _ hd hr
  refine ⟨?_, ?_, ?_, ?_, hlast⟩ <;> clear hlast
  all_goals
    rcases hd : url_decode req.uri with ⟨b, path⟩
    cases b with
    | false =>
      rw [handle_request_of_decode_failure self w req rep (by rw [hd])]
      simp [closed_exactly_once, run_span, bt_begins, exitcall_begins]
    | true =>
      by_cases hr : rejected path = true
      · rw [handle_request_of_rejected self w req rep path hd hr]
        simp [closed_exactly_once, run_span, bt_begins, exitcall_begins]
      · have hr2 : rejected path = false := by simpa using hr
        rw [handle_request_of_accepted self w req rep path hd hr2]
        cases w.file (c_str (self.doc_root_ ++ add_index path)) with
        | none =>
          simp [closed_exactly_once, run_span, bt_step, exitcall_step, bt_begins,
            exitcall_begins, List.count_cons]
        | some bytes =>
          obtain ⟨backend, inside, hin, hsec⟩ := exit_call_section_eq w (add_index path)
          rw [hsec]
          rcases hin with rfl | rfl <;> cases failure w.outbound <;>
            simp [closed_exactly_once, run_span, bt_step, exitcall_step, bt_begins,
              exitcall_begins, List.count_cons]

/-- C6 on the three exit paths, for `/missing.txt` (file not found), `/index.html` with the
outbound call succeeding, and `/index.html` with the connection refused: one Transaction
Span is opened each time, one Exit-Call Span on the last two, and each is closed exactly
once. -/
theorem spans_closed_exactly_once_witness :
    (¬ invalid_uri (get "/missing.txt").uri ∧ ¬ invalid_uri (get "/index.html").uri)
      ∧ (bt_begins (handle_request sample_handler (sample_world none .shutdown_ok)
            (get "/missing.txt") empty_reply).2 = 1
        ∧ closed_exactly_once bt_step (handle_request sample_handler
            (sample_world none .shutdown_ok) (get "/missing.txt") empty_reply).2 = true)
      ∧ (exitcall_begins (handle_request sample_handler (sample_world none .shutdown_ok)
            (get "/index.html") empty_reply).2 = 1
        ∧ closed_exactly_once exitcall_step (handle_request sample_handler
            (sample_world none .shutdown_ok) (get "/index.html") empty_reply).2 = true)
      ∧ (exitcall_begins (handle_request sample_handler
            (sample_world none (.connect_throws "refused".toList)) (get "/index.html")
            empty_reply).2 = 1
        ∧ closed_exactly_once exitcall_step (handle_request sample_handler
            (sample_world none (.connect_throws "refused".toList)) (get "/index.html")
            empty_reply).2 = true) :=
  have hmissing : ¬ invalid_uri (get "/missing.txt").uri := by
    unfold invalid_uri
    decide
  have hindex : ¬ invalid_uri (get "/index.html").uri := by
    unfold invalid_uri
    decide
  ⟨⟨hmissing, hindex⟩,
    ⟨((spans_closed_exactly_once sample_handler (sample_world none .shutdown_ok)
        (get "/missing.txt") empty_reply).2.2.2.2 hmissing).1,
      (spans_closed_exactly_once sample_handler (sample_world none .shutdown_ok)
        (get "/missing.txt") empty_reply).1⟩,
    ⟨((spans_closed_exactly_once sample_handler (sample_world none .shutdown_ok)
        (get "/index.html") empty_reply).2.2.2.2 hindex).2 (by decide),
      (spans_closed_exactly_once sample_handler (sample_world none .shutdown_ok)
        (get "/index.html") empty_reply).2.1⟩,
    ⟨((spans_closed_exactly_once sample_handler
        (sample_world none (.connect_throws "refused".toList)) (get "/index.html")
        empty_reply).2.2.2.2 hindex).2 (by decide),
      (spans_closed_exactly_once sample_handler
        (sample_world none (.connect_throws "refused".toList)) (get "/index.html")
        empty_reply).2.1⟩⟩

/-- C7, as the code has it: for every request that reaches the exit call and whose outbound
call fails, the Exit-Call Span records exactly one error, whose flag (the `is_fatal` of the
specification) is true, recorded before the span is ended, and the handler returns without
annotating the Transaction Span with `HTTP-Response-Status` `200`. -/
theorem exit_call_failure_recorded (self : request_handler) (w : World) (req : request)
    (rep : reply) (bytes what : Str) (hvalid : ¬ invalid_uri req.uri)
    (hfile : w.file (c_str (self.doc_root_ ++ add_index (url_decode req.uri).2)) = some bytes)
    (hfail : failure w.outbound = some what) :
    exitcall_errors (handle_request self w req rep).2
        = [Event.exitcall_add_error .APPD_LEVEL_ERROR what true]
      ∧ exitcall_error_flags (handle_request self w req rep).2 = [true]
      ∧ (∃ before after,
          (handle_request self w req rep).2
              = before ++ [Event.exitcall_add_error .APPD_LEVEL_ERROR what true] ++ after
            ∧ Event.exitcall_end ∉ before ∧ Event.exitcall_end ∈ after)
      ∧ Event.bt_add_user_data "HTTP-Response-Status".toList "200".toList
          ∉ (handle_request self w req rep).2 := by
  obtain ⟨hd, hr⟩ := accepted_of_not_invalid hvalid
  generalize (url_decode req.uri).2 = path at hd hr hfile ⊢
  obtain ⟨backend, inside, hin, hsec⟩ := exit_call_section_eq w (add_index path)
  have hstatus : response_status w w.outbound ≠ "200".toList := by
    unfold response_status
    rw [hfail]
    split_ifs <;> simp
  rw [handle_request_of_accepted self w req rep path hd hr, hfile, hsec, hfail]
  generalize response_status w w.outbound = status at hstatus
  refine ⟨?_, ?_, ?_, ?_⟩
  · rcases hin with rfl | rfl <;> simp [exitcall_errors]
  · rcases hin with rfl | rfl <;> simp [exitcall_error_flags]
  · refine ⟨[ Event.bt_begin (substr path 0 (find_last_of path ['/']))
                (singularityheader req.headers),
              Event.bt_set_url path,
              Event.bt_add_user_data "HTTP-Request-Method".toList req.method,
              Event.ifstream_open (c_str (self.doc_root_ ++ add_index path)),
              Event.exitcall_begin backend, Event.exitcall_set_details backend ] ++ inside,
            [ Event.exitcall_end,
              Event.bt_add_user_data "HTTP-Response-Status".toList status,
              Event.bt_end ], ?_, ?_, ?_⟩
    · simp
    · rcases hin with rfl | rfl <;> simp
    · simp
  · simp only [ne_eq, String.toList] at hstatus
    rcases hin with rfl | rfl <;> simp <;> exact fun e => hstatus e.symm

/-- C7 at `/index.html` with a refused connection: the request is valid, the file exists,
the outbound call fails, and exactly one error with the flag set is recorded before the
span is ended. -/
theorem exit_call_failure_recorded_witness :
    (¬ invalid_uri (get "/index.html").uri
        ∧ failure (sample_world none (.connect_throws "refused".toList)).outbound
            = some "refused".toList)
      ∧ exitcall_errors (handle_request sample_handler
            (sample_world none (.connect_throws "refused".toList)) (get "/index.html")
            empty_reply).2
          = [Event.exitcall_add_error .APPD_LEVEL_ERROR "refused".toList true] :=
  have hvalid : ¬ invalid_uri (get "/index.html").uri := by
    unfold invalid_uri
    decide
  ⟨⟨hvalid, rfl⟩,
    (exit_call_failure_recorded sample_handler
      (sample_world none (.connect_throws "refused".toList)) (get "/index.html") empty_reply
      "hi".toList "refused".toList hvalid (by decide) rfl).1⟩

/-- C7 as stated fails at `/index.html` with a refused connection: the one error recorded on
the Exit-Call Span carries the flag true, not false. -/
theorem exit_call_error_flag_is_set :
    ¬ invalid_uri (get "/index.html").uri
      ∧ failure (sample_world none (.connect_throws "refused".toList)).outbound
          = some "refused".toList
      ∧ exitcall_error_flags (handle_request sample_handler
            (sample_world none (.connect_throws "refused".toList)) (get "/index.html")
            empty_reply).2 = [true]
      ∧ exitcall_error_flags (handle_request sample_handler
            (sample_world none (.connect_throws "refused".toList)) (get "/index.html")
            empty_reply).2 ≠ [false] := by
  refine ⟨?_, rfl, by decide, by decide⟩
  unfold invalid_uri
  decide

/-- C8 fails on the code when `APPDYNAMICS_UPSTREAM_TIER` is set to `false`: start-up
succeeds having registered `RabbitMQ` alone, and the handler passes
`http://ext-api.stoloto.ru`, which was never declared or added, to `make_exit_call`. -/
theorem unregistered_backend_used :
    startup_succeeds (main 4 (sample_env (some "false".toList)) sdk_ok .run_returns) = true
      ∧ registry (main 4 (sample_env (some "false".toList)) sdk_ok .run_returns)
          = ["RabbitMQ".toList]
      ∧ exitcall_backends (handle_request sample_handler
            (sample_world (some "false".toList) .shutdown_ok) (get "/index.html")
            empty_reply).2 = ["http://ext-api.stoloto.ru".toList]
      ∧ "http://ext-api.stoloto.ru".toList
          ∉ registry (main 4 (sample_env (some "false".toList)) sdk_ok .run_returns) := by
  refine ⟨by decide, by decide, by decide, by decide⟩

/-- C9 fails on the code when setting the `HOST` property of `RabbitMQ` reports failure and
every other call succeeds: the code is overwritten by the next call before it is tested, and
`main` registers both backends, runs the server and returns `0`. -/
theorem unchecked_property_failure :
    sdk_host_fails.appd_backend_set_identifying_property "RabbitMQ".toList "HOST".toList
          "localhost".toList ≠ 0
      ∧ exit_code (main 4 (sample_env none) sdk_host_fails .run_returns) = some 0
      ∧ startup_succeeds (main 4 (sample_env none) sdk_host_fails .run_returns) = true := by
  refine ⟨by decide, by decide, by decide⟩

/-- C10: the reply does not depend on the fate of the exit call.  Any two runs of
`handle_request` that differ only in the outbound call leave the same reply; when the run
reaches the exit call that reply has the status `ok`, the initial content followed by the
file, and the two headers `Content-Length` (the decimal length of the content) and
`Content-Type`; and the calls on the Transaction Span are the same up to the value of the
`HTTP-Response-Status` annotation, `200` on success and `502` or `501` on failure. -/
theorem reply_independent_of_exit_call (self : request_handler) (w : World) (req : request)
    (rep : reply) :
    (∀ net1 net2,
        (handle_request self (with_outbound w net1) req rep).1
          = (handle_request self (with_outbound w net2) req rep).1)
      ∧ (∀ bytes, ¬ invalid_uri req.uri →
          w.file (c_str (self.doc_root_ ++ add_index (url_decode req.uri).2)) = some bytes →
          ∃ common, ∀ net,
            (handle_request self (with_outbound w net) req rep).1
                = { status := .ok,
                    headers :=
                      [ header.mk "Content-Length".toList
                          (to_string (rep.content ++ bytes).length),
                        header.mk "Content-Type".toList
                          (w.extension_to_type
                            (extension_of (add_index (url_decode req.uri).2))) ],
                    content := rep.content ++ bytes }
              ∧ bt_calls (handle_request self (with_outbound w net) req rep).2
                = common ++ [ Event.bt_add_user_data "HTTP-Response-Status".toList
                                (response_status w net),
                              Event.bt_end ]) := by
  refine ⟨fun net1 net2 => ?_, fun bytes hvalid hfile => ?_⟩
  · rw [reply_of_with_outbound, reply_of_with_outbound]
  · obtain ⟨hd, hr⟩ := accepted_of_not_invalid hvalid
    generalize (url_decode req.uri).2 = path at hd hr hfile ⊢
    refine ⟨[ Event.bt_begin (substr path 0 (find_last_of path ['/']))
                (singularityheader req.headers),
              Event.bt_set_url path,
              Event.bt_add_user_data "HTTP-Request-Method".toList req.method ],
            fun net => ?_⟩
    have hfile2 : (with_outbound w net).file (c_str (self.doc_root_ ++ add_index path))
        = some bytes := hfile
    have hstatus : response_status (with_outbound w net) (with_outbound w net).outbound
        = response_status w net := rfl
    obtain ⟨backend, inside, hin, hsec⟩ :=
      exit_call_section_eq (with_outbound w net) (add_index path)
    rw [handle_request_of_accepted self _ req rep path hd hr, hfile2, hsec, hstatus]
    refine ⟨?_, ?_⟩
    · simp only [fill_reply_eq]
      rfl
    · rcases hin with rfl | rfl <;> cases failure (with_outbound w net).outbound <;>
        simp [bt_calls]

/-- C10 at `/index.html`: the request is valid and the file exists; with the outbound call
succeeding or refused the reply is the same, `ok` with the body `hi`, `Content-Length: 2`
and `Content-Type: text/html`. -/
theorem reply_independent_of_exit_call_witness :
    (¬ invalid_uri (get "/index.html").uri)
      ∧ (handle_request sample_handler
            (with_outbound (sample_world none .shutdown_ok) .shutdown_ok)
            (get "/index.html") empty_reply).1
          = (handle_request sample_handler
            (with_outbound (sample_world none .shutdown_ok)
              (.connect_throws "refused".toList))
            (get "/index.html") empty_reply).1
      ∧ (∃ common, ∀ net,
          (handle_request sample_handler (with_outbound (sample_world none .shutdown_ok) net)
                (get "/index.html") empty_reply).1
              = { status := .ok,
                  headers :=
                    [ header.mk "Content-Length".toList
                        (to_string (empty_reply.content ++ "hi".toList).length),
                      header.mk "Content-Type".toList
                        ((sample_world none .shutdown_ok).extension_to_type
                          (extension_of (add_index (url_decode (get "/index.html").uri).2))) ],
                  content := empty_reply.content ++ "hi".toList }
            ∧ bt_calls (handle_request sample_handler
                (with_outbound (sample_world none .shutdown_ok) net)
                (get "/index.html") empty_reply).2
              = common ++ [ Event.bt_add_user_data "HTTP-Response-Status".toList
                              (response_status (sample_world none .shutdown_ok) net),
                            Event.bt_end ]) :=
  have hvalid : ¬ invalid_uri (get "/index.html").uri := by
    unfold invalid_uri
    decide
  ⟨hvalid,
    (reply_independent_of_exit_call sample_handler (sample_world none .shutdown_ok)
      (get "/index.html") empty_reply).1 .shutdown_ok (.connect_throws "refused".toList),
    (reply_independent_of_exit_call sample_handler (sample_world none .shutdown_ok)
      (get "/index.html") empty_reply).2 "hi".toList hvalid (by decide)⟩

end http.server
